import Mathlib

/-!
# PeerDB flow: scoped eventhub identifiers, the catalog pool singleton and the process shell

A shallow embedding of

* `flow/connectors/eventhub/scoped_eventhub.go`
* `flow/connectors/utils/catalog/env.go`
* `flow/main.go`

Go strings are embedded as Lean strings and processed through their character lists;
the two bytes the parser looks for, `.` and `"`, are ASCII and never part of a longer
UTF-8 sequence, so splitting and trimming by character is splitting and trimming by byte.
Functions with a Go result pair `(T, error)` return a Lean pair whose second component is
`none` for a nil error, so that the value handed back next to an error stays visible.
-/

/-! ## The parts of Go package `strings` used by the parser -/

namespace strings

/-- The byte `.` on which a scoped eventhub is split. -/
def dot : Char := '.'

/-- The byte `"` trimmed from the eventhub and the partition key column. -/
def dquote : Char := '"'

/-- Prepend a character to the first segment of a segment list. -/
def consHead (c : Char) : List (List Char) → List (List Char)
  | [] => [[c]]
  | p :: ps => (c :: p) :: ps

/-- Go `strings.Split(s, sep)` for a separator of one byte: the segments of `s` between
consecutive occurrences of `sep`, in order; a string without `sep` (the empty one too)
gives one segment. -/
def SplitChars (sep : Char) : List Char → List (List Char)
  | [] => [[]]
  | c :: cs => if c = sep then [] :: SplitChars sep cs else consHead c (SplitChars sep cs)

/-- Go `strings.Split(s, sep)` with `sep` one byte long. -/
def Split (s : String) (sep : Char) : List String :=
  (SplitChars sep s.data).map String.mk

/-- Go `trimLeftByte`: `for len(s) > 0 && s[0] == c { s = s[1:] }`. -/
def trimLeftByte (s : List Char) (c : Char) : List Char :=
  s.dropWhile (fun x => x == c)

/-- Go `trimRightByte`: `for len(s) > 0 && s[len(s)-1] == c { s = s[:len(s)-1] }`. -/
def trimRightByte (s : List Char) (c : Char) : List Char :=
  (s.reverse.dropWhile (fun x => x == c)).reverse

/-- Go `strings.Trim(s, cutset)` on its path for a cutset of one ASCII byte:
`trimLeftByte(trimRightByte(s, cutset[0]), cutset[0])`. -/
def TrimChars (s : List Char) (c : Char) : List Char :=
  trimLeftByte (trimRightByte s c) c

/-- Go `strings.Trim(s, cutset)` with `cutset` one ASCII byte long. -/
def Trim (s : String) (c : Char) : String :=
  String.mk (TrimChars s.data c)

/-- The spec's reading of "any leading/trailing double-quote characters stripped":
`t` is `p` without a run of `c` in front and a run of `c` behind, and `t` itself neither
starts nor ends with `c`, so no leading or trailing `c` is left and nothing else is lost. -/
def Stripped (c : Char) (p t : String) : Prop :=
  ∃ a b : Nat, p.data = List.replicate a c ++ t.data ++ List.replicate b c ∧
    t.data.head? ≠ some c ∧ t.data.getLast? ≠ some c

end strings

/-! ## `connectors/eventhub/scoped_eventhub.go` -/

namespace conneventhub

/-- Scoped eventhub is of the form `peer_name.eventhub_name.partition_column`. -/
structure ScopedEventhub where
  PeerName : String
  Eventhub : String
  PartitionKeyColumn : String
  deriving DecidableEq, Repr

/-- The Go zero value `ScopedEventhub{}`. -/
def ScopedEventhub.zero : ScopedEventhub := ⟨"", "", ""⟩

/-- The message of `fmt.Errorf("invalid scoped eventhub '%s'", raw)`. -/
def invalidScopedEventhub (raw : String) : String :=
  "invalid scoped eventhub '" ++ raw ++ "'"

/-- `NewScopedEventhub(raw)`: split by dot, require three parts, trim the double quotes of
the second and the third. The second component is the Go error (`none` is nil). -/
def NewScopedEventhub (raw : String) : ScopedEventhub × Option String :=
  match strings.Split raw strings.dot with
  | [p0, p1, p2] =>
    ({ PeerName := p0
       Eventhub := strings.Trim p1 strings.dquote
       PartitionKeyColumn := strings.Trim p2 strings.dquote }, none)
  | _ => (ScopedEventhub.zero, some (invalidScopedEventhub raw))

/-- `s.Equals(other)`: all three fields match. -/
def ScopedEventhub.Equals (s other : ScopedEventhub) : Bool :=
  s.PeerName == other.PeerName &&
    s.Eventhub == other.Eventhub &&
    s.PartitionKeyColumn == other.PartitionKeyColumn

/-- `s.ToString()`: `fmt.Sprintf("%s.%s.%s", s.PeerName, s.Eventhub, s.PartitionKeyColumn)`. -/
def ScopedEventhub.ToString (s : ScopedEventhub) : String :=
  s.PeerName ++ "." ++ s.Eventhub ++ "." ++ s.PartitionKeyColumn

end conneventhub

/-! ## Go errors -/

/-- Go error values as this code builds them: an error produced elsewhere, or
`fmt.Errorf(msg + ": %w", cause)` wrapping a cause. -/
inductive GoError where
  | base (msg : String)
  | wrap (msg : String) (cause : GoError)
  deriving DecidableEq, Repr

/-- The text of an error, `err.Error()`. -/
def GoError.Error : GoError → String
  | .base msg => msg
  | .wrap msg cause => msg ++ ": " ++ cause.Error

/-! ## `connectors/utils/catalog/env.go` -/

namespace catalog

/-- The identity of a `*pgxpool.Pool`. -/
abbrev Pool := Nat

/-- What the outside world answers during one call: the result `pgxpool.New` has in
store (it hands back a nil pool with every error) and the result of `pool.Ping`. -/
structure World where
  New : Except GoError Pool
  Ping : Pool → Option GoError

/-- The external calls a call of `GetCatalogConnectionPoolFromEnv` performs. -/
inductive Event where
  | New
  | Ping (p : Pool)
  deriving DecidableEq, Repr

/-- One finished call: the package variable `pool` afterwards, the returned pair and
the external calls made, in order. -/
structure Call where
  pool : Option Pool
  ret : Option Pool × Option GoError
  events : List Event
  deriving DecidableEq, Repr

/-- The message both `fmt.Errorf` calls of the function wrap their cause with. -/
def unableToEstablish : String := "unable to establish connection with catalog"

/-- The tail of the function, from `err = pool.Ping(ctx)` on, with `pool` non-nil. -/
def pingAndReturn (w : World) (p : Pool) (events : List Event) : Call :=
  match w.Ping p with
  | some err =>
    { pool := some p
      ret := (some p, some (GoError.wrap unableToEstablish err))
      events := events ++ [Event.Ping p] }
  | none => { pool := some p, ret := (some p, none), events := events ++ [Event.Ping p] }

/-- `GetCatalogConnectionPoolFromEnv(ctx)` run under the mutex, from the current value
of the package variable `pool`. -/
def GetCatalogConnectionPoolFromEnv (w : World) (pool : Option Pool) : Call :=
  match pool with
  | none =>
    match w.New with
    | .error err =>
      { pool := none
        ret := (none, some (GoError.wrap unableToEstablish err))
        events := [Event.New] }
    | .ok p => pingAndReturn w p [Event.New]
  | some p => pingAndReturn w p []

/-- A sequence of calls, one after the other (the mutex serialises them), each in its
own world; the package variable is threaded through. -/
def calls : List World → Option Pool → List Call
  | [], _ => []
  | w :: ws, pool =>
    let c := GetCatalogConnectionPoolFromEnv w pool
    c :: calls ws c.pool

end catalog

/-! ## `flow/main.go` -/

namespace flow

/-- The handle of a Temporal `client.Client`. -/
abbrev Client := Nat

/-- The handle of a Temporal `worker.Worker`. -/
abbrev Worker := Nat

/-- How a Go call ends: it returns an error value (nil is `none`) or it panics. -/
inductive Outcome where
  | ret (err : Option GoError)
  | panicked (v : String)
  deriving DecidableEq, Repr

/-- `cmd.WorkerOptions`. -/
structure WorkerOptions where
  TemporalHostPort : String
  EnableProfiling : Bool
  PyroscopeServer : String
  TemporalNamespace : String
  TemporalCert : String
  TemporalKey : String
  TemporalMaxConcurrentActivities : Int
  TemporalMaxConcurrentWorkflowTasks : Int
  deriving DecidableEq, Repr

/-- `cmd.SnapshotWorkerOptions`. -/
structure SnapshotWorkerOptions where
  TemporalHostPort : String
  TemporalNamespace : String
  TemporalCert : String
  TemporalKey : String
  deriving DecidableEq, Repr

/-- `cmd.APIServerParams`; the two ports are `uint16`. -/
structure APIServerParams where
  Port : Nat
  TemporalHostPort : String
  GatewayPort : Nat
  TemporalNamespace : String
  TemporalCert : String
  TemporalKey : String
  deriving DecidableEq, Repr

/-- The flag values of a parsed command line, with the defaults of the flag
declarations; the two ports are unsigned integer flags. -/
structure CliCommand where
  temporalHostPort : String := "localhost:7233"
  temporalCert : String := ""
  temporalKey : String := ""
  enableProfiling : Bool := false
  pyroscopeServerAddress : String := "http://pyroscope:4040"
  temporalNamespace : String := "default"
  temporalMaxConcurrentActivities : Int := 1000
  temporalMaxConcurrentWorkflowTasks : Int := 1000
  port : Nat := 8110
  gatewayPort : Nat := 8111
  deriving DecidableEq, Repr

/-- Package `cmd` and the Temporal worker, which `main.go` only calls: the three
bootstrap entry points and `w.Run(worker.InterruptCh())`. -/
structure Cmd where
  WorkerMain : WorkerOptions → Except GoError (Client × Worker)
  SnapshotWorkerMain : SnapshotWorkerOptions → Except GoError (Client × Worker)
  APIMain : APIServerParams → Outcome
  Run : Worker → Outcome

/-- The calls `main.go` makes into other packages. -/
inductive Event where
  | WorkerMain (o : WorkerOptions)
  | SnapshotWorkerMain (o : SnapshotWorkerOptions)
  | APIMain (p : APIServerParams)
  | Run (w : Worker)
  | Close (c : Client)
  | logPrintf (line : String)
  | appClose
  deriving DecidableEq, Repr

/-- An executed piece of Go code: the calls it made, in order, and how it ended. -/
structure Exec where
  trace : List Event
  result : Outcome
  deriving DecidableEq, Repr

/-- Go `defer`: the deferred call runs when the rest of the function body has finished,
by a return or by a panic, and the function then ends the way the body did. -/
def withDefer (deferred : Event) (body : Exec) : Exec :=
  { trace := body.trace ++ [deferred], result := body.result }

/-- The conversion `uint16(x)` of an unsigned integer. -/
def uint16 (x : Nat) : Nat := x % 65536

/-- The `&cmd.WorkerOptions{...}` literal of the `worker` command. -/
def workerOptions (clicmd : CliCommand) : WorkerOptions :=
  { TemporalHostPort := clicmd.temporalHostPort
    EnableProfiling := clicmd.enableProfiling
    PyroscopeServer := clicmd.pyroscopeServerAddress
    TemporalNamespace := clicmd.temporalNamespace
    TemporalCert := clicmd.temporalCert
    TemporalKey := clicmd.temporalKey
    TemporalMaxConcurrentActivities := clicmd.temporalMaxConcurrentActivities
    TemporalMaxConcurrentWorkflowTasks := clicmd.temporalMaxConcurrentWorkflowTasks }

/-- The `Action` of the `worker` command: `cmd.WorkerMain`, the error check,
`defer c.Close()` and `return w.Run(worker.InterruptCh())`. -/
def workerAction (cmd : Cmd) (clicmd : CliCommand) : Exec :=
  match cmd.WorkerMain (workerOptions clicmd) with
  | .error err =>
    { trace := [Event.WorkerMain (workerOptions clicmd)], result := Outcome.ret (some err) }
  | .ok (c, w) =>
    let body := withDefer (Event.Close c) { trace := [Event.Run w], result := cmd.Run w }
    { trace := Event.WorkerMain (workerOptions clicmd) :: body.trace, result := body.result }

/-- The `&cmd.SnapshotWorkerOptions{...}` literal of the `snapshot-worker` command. -/
def snapshotWorkerOptions (clicmd : CliCommand) : SnapshotWorkerOptions :=
  { TemporalHostPort := clicmd.temporalHostPort
    TemporalNamespace := clicmd.temporalNamespace
    TemporalCert := clicmd.temporalCert
    TemporalKey := clicmd.temporalKey }

/-- The `Action` of the `snapshot-worker` command: `cmd.SnapshotWorkerMain`, the error
check, `defer c.Close()` and `return w.Run(worker.InterruptCh())`. -/
def snapshotWorkerAction (cmd : Cmd) (clicmd : CliCommand) : Exec :=
  match cmd.SnapshotWorkerMain (snapshotWorkerOptions clicmd) with
  | .error err =>
    { trace := [Event.SnapshotWorkerMain (snapshotWorkerOptions clicmd)]
      result := Outcome.ret (some err) }
  | .ok (c, w) =>
    let body := withDefer (Event.Close c) { trace := [Event.Run w], result := cmd.Run w }
    { trace := Event.SnapshotWorkerMain (snapshotWorkerOptions clicmd) :: body.trace
      result := body.result }

/-- The parameters the `api` command hands to `cmd.APIMain`. -/
def apiParams (clicmd : CliCommand) : APIServerParams :=
  { Port := uint16 clicmd.port
    TemporalHostPort := clicmd.temporalHostPort
    GatewayPort := uint16 clicmd.gatewayPort
    TemporalNamespace := clicmd.temporalNamespace
    TemporalCert := clicmd.temporalCert
    TemporalKey := clicmd.temporalKey }

/-- The `Action` of the `api` command. -/
def apiAction (cmd : Cmd) (clicmd : CliCommand) : Exec :=
  { trace := [Event.APIMain (apiParams clicmd)], result := cmd.APIMain (apiParams clicmd) }

/-- The three commands of the app. -/
inductive Role where
  | worker
  | snapshotWorker
  | api
  deriving DecidableEq, Repr

/-- `app.Run(appCtx, os.Args)` once the command line has selected a command: its
`Action` runs and its result is the result of `app.Run`. -/
def appRun (cmd : Cmd) (role : Role) (clicmd : CliCommand) : Exec :=
  match role with
  | .worker => workerAction cmd clicmd
  | .snapshotWorker => snapshotWorkerAction cmd clicmd
  | .api => apiAction cmd clicmd

/-- How the body of `func main` ends. -/
inductive MainEnd where
  | returned
  | panicked (v : String)
  | exited (code : Nat)
  deriving DecidableEq, Repr

/-- The exit status the Go runtime gives the process: 0 when `main` returns, 2 after an
unrecovered panic, the argument of `os.Exit` otherwise. -/
def exitStatus : MainEnd → Nat
  | .returned => 0
  | .panicked _ => 2
  | .exited code => code

/-- A finished process: the calls made, how `main` ended. -/
structure Process where
  trace : List Event
  ended : MainEnd
  deriving DecidableEq, Repr

/-- The line of `log.Printf("error running app: %+v", err)`. -/
def errorRunningApp (err : GoError) : String := "error running app: " ++ err.Error

/-- The last statement of `func main`: `if err := app.Run(appCtx, os.Args); err != nil`
logs the error with `log.Printf`, after which the function body is over. -/
def mainBody (cmd : Cmd) (role : Role) (clicmd : CliCommand) : Process :=
  let run := appRun cmd role clicmd
  match run.result with
  | .ret (some err) =>
    { trace := run.trace ++ [Event.logPrintf (errorRunningApp err)], ended := MainEnd.returned }
  | .ret none => { trace := run.trace, ended := MainEnd.returned }
  | .panicked v => { trace := run.trace, ended := MainEnd.panicked v }

/-- The process from `app.Run` on: `func main` with its `defer appClose()`, which runs
when the body has returned or panicked. -/
def main (cmd : Cmd) (role : Role) (clicmd : CliCommand) : Process :=
  let body := mainBody cmd role clicmd
  { trace := body.trace ++ [Event.appClose], ended := body.ended }

/-- The lines a process logged through `log.Printf`. -/
def Process.logged (p : Process) : List String :=
  p.trace.filterMap fun e => match e with
    | .logPrintf line => some line
    | _ => none

/-- A `cmd` package whose worker bootstrap fails with `dial tcp: connection refused`
and whose other entry points succeed. -/
def refusingCmd : Cmd :=
  { WorkerMain := fun _ => .error (GoError.base "dial tcp: connection refused")
    SnapshotWorkerMain := fun _ => .ok (1, 2)
    APIMain := fun _ => Outcome.ret none
    Run := fun _ => Outcome.ret none }

/-! ### Signals -/

/-- A signal the process receives: SIGINT and SIGTERM through the watcher of
`signal.NotifyContext`, SIGQUIT out of the channel `sigs` of the diagnostic goroutine.
A received SIGQUIT comes with what `runtime.Stack(buf, all)` writes at that moment, as
a function of the length of `buf` and of `all`. -/
inductive Received where
  | SIGINT
  | SIGTERM
  | SIGQUIT (Stack : Nat → Bool → String)

/-- Where the diagnostic goroutine is: blocked in `<-sigs` of its `for` loop, or gone. -/
inductive Listener where
  | waiting
  | exited
  deriving DecidableEq, Repr

/-- The state the signals act on: whether `appCtx` is cancelled, the lines logged by the
diagnostic goroutine, and that goroutine itself. -/
structure Lifecycle where
  appCtxDone : Bool
  log : List String
  listener : Listener
  deriving DecidableEq, Repr

/-- The state after `main` has set up `appCtx` and started the diagnostic goroutine. -/
def Lifecycle.started : Lifecycle := { appCtxDone := false, log := [], listener := .waiting }

/-- The line of `log.Printf("=== received SIGQUIT ===\n*** goroutine dump...\n%s\n*** end\n",
buf[:stacklen])`. -/
def goroutineDump (dump : String) : String :=
  "=== received SIGQUIT ===\n*** goroutine dump...\n" ++ dump ++ "\n*** end\n"

/-- One iteration of the diagnostic loop after `<-sigs` has delivered: with
`buf := make([]byte, 1<<20)`, `stacklen := runtime.Stack(buf, true)` and the log line
over `buf[:stacklen]`; the loop then waits again. -/
def dumpOnce (s : Lifecycle) (Stack : Nat → Bool → String) : Lifecycle :=
  match s.listener with
  | .waiting => { s with log := s.log ++ [goroutineDump (Stack (1 <<< 20) true)] }
  | .exited => s

/-- One received signal: `signal.NotifyContext(..., SIGINT, SIGTERM)` cancels `appCtx`;
SIGQUIT runs one iteration of the diagnostic loop. -/
def Lifecycle.step (s : Lifecycle) : Received → Lifecycle
  | .SIGINT => { s with appCtxDone := true }
  | .SIGTERM => { s with appCtxDone := true }
  | .SIGQUIT Stack => dumpOnce s Stack

/-- The signals received one after the other. -/
def Lifecycle.run (s : Lifecycle) (sigs : List Received) : Lifecycle :=
  sigs.foldl Lifecycle.step s

/-- Does the signal cancel `appCtx` (is it one `signal.NotifyContext` was given)? -/
def Received.cancels : Received → Bool
  | .SIGINT => true
  | .SIGTERM => true
  | .SIGQUIT _ => false

/-- The log line a received signal is answered with, if any. -/
def Received.dumpLine : Received → Option String
  | .SIGQUIT Stack => some (goroutineDump (Stack (1 <<< 20) true))
  | _ => none

end flow

open strings conneventhub

/-! ## Splitting -/

theorem consHead_length (c : Char) (l : List (List Char)) (h : l ≠ []) :
    (consHead c l).length = l.length := by
  cases l with
  | nil => exact absurd rfl h
  | cons p ps => rfl

theorem SplitChars_ne_nil (sep : Char) (s : List Char) : SplitChars sep s ≠ [] := by
  cases s with
  | nil => simp [SplitChars]
  | cons c cs =>
    by_cases h : c = sep
    · simp [SplitChars, h]
    · cases hs : SplitChars sep cs <;> simp [SplitChars, h, hs, consHead]

theorem SplitChars_length (sep : Char) (s : List Char) :
    (SplitChars sep s).length = s.count sep + 1 := by
  induction s with
  | nil => simp [SplitChars]
  | cons c cs ih =>
    by_cases h : c = sep
    · subst h
      simp [SplitChars, ih]
    · have hne : (c == sep) = false := by simpa using h
      rw [SplitChars, if_neg h, consHead_length c _ (SplitChars_ne_nil sep cs), ih,
        List.count_cons, hne]
      simp

theorem SplitChars_of_not_mem (sep : Char) (p : List Char) (h : sep ∉ p) :
    SplitChars sep p = [p] := by
  induction p with
  | nil => rfl
  | cons c cs ih =>
    have hc : c ≠ sep := fun e => h (by simp [e])
    have hcs : sep ∉ cs := fun e => h (List.mem_cons_of_mem _ e)
    simp [SplitChars, hc, ih hcs, consHead]

theorem SplitChars_append_sep (sep : Char) (p rest : List Char) (h : sep ∉ p) :
    SplitChars sep (p ++ sep :: rest) = p :: SplitChars sep rest := by
  induction p with
  | nil => simp [SplitChars]
  | cons c cs ih =>
    have hc : c ≠ sep := fun e => h (by simp [e])
    have hcs : sep ∉ cs := fun e => h (List.mem_cons_of_mem _ e)
    simp [SplitChars, hc, ih hcs, consHead]

theorem SplitChars_not_mem (sep : Char) (s : List Char) :
    ∀ q ∈ SplitChars sep s, sep ∉ q := by
  induction s with
  | nil => simp [SplitChars]
  | cons c cs ih =>
    by_cases h : c = sep
    · intro q hq
      simp only [SplitChars, if_pos h, List.mem_cons] at hq
      rcases hq with rfl | hq
      · simp
      · exact ih q hq
    · intro q hq
      rw [SplitChars, if_neg h] at hq
      cases hs : SplitChars sep cs with
      | nil => exact absurd hs (SplitChars_ne_nil sep cs)
      | cons p ps =>
        rw [hs] at hq ih
        simp only [consHead, List.mem_cons] at hq
        rcases hq with rfl | hq
        · intro hmem
          rcases List.mem_cons.mp hmem with e | e
          · exact h e.symm
          · exact ih p (List.mem_cons_self _ _) e
        · exact ih q (List.mem_cons_of_mem _ hq)

/-! ## Trimming -/

theorem dropWhile_head_ne (c : Char) (s : List Char) :
    (s.dropWhile (fun x => x == c)).head? ≠ some c := by
  induction s with
  | nil => simp
  | cons x xs ih =>
    by_cases h : x = c
    · simpa [List.dropWhile_cons, h] using ih
    · simp [List.dropWhile_cons, h]

theorem dropWhile_replicate_append (c : Char) (s : List Char) :
    ∃ a : Nat, s = List.replicate a c ++ s.dropWhile (fun x => x == c) := by
  induction s with
  | nil => exact ⟨0, rfl⟩
  | cons x xs ih =>
    by_cases h : x = c
    · obtain ⟨a, ha⟩ := ih
      refine ⟨a + 1, ?_⟩
      subst h
      simp only [List.dropWhile_cons, beq_self_eq_true, if_true, List.replicate_succ,
        List.cons_append]
      rw [← ha]
    · exact ⟨0, by simp [List.dropWhile_cons, h]⟩

theorem dropWhile_eq_self (c : Char) (s : List Char) (h : s.head? ≠ some c) :
    s.dropWhile (fun x => x == c) = s := by
  cases s with
  | nil => rfl
  | cons x xs =>
    have hx : x ≠ c := fun e => h (by simp [e])
    simp [List.dropWhile_cons, hx]

theorem dropWhile_replicate_self (c : Char) (a : Nat) (t : List Char) :
    (List.replicate a c ++ t).dropWhile (fun x => x == c) =
      t.dropWhile (fun x => x == c) := by
  induction a with
  | zero => simp
  | succ n ih => simp [List.replicate_succ, List.dropWhile_cons]

theorem trimLeftByte_sublist (s : List Char) (c : Char) : (trimLeftByte s c).Sublist s :=
  (List.dropWhile_suffix _).sublist

theorem trimRightByte_sublist (s : List Char) (c : Char) : (trimRightByte s c).Sublist s := by
  have h := ((List.dropWhile_suffix (fun x => x == c) : _ <:+ s.reverse).sublist).reverse
  simpa [trimRightByte] using h

theorem TrimChars_sublist (s : List Char) (c : Char) : (TrimChars s c).Sublist s :=
  (trimLeftByte_sublist _ c).trans (trimRightByte_sublist s c)

theorem trimRightByte_getLast_ne (s : List Char) (c : Char) :
    (trimRightByte s c).getLast? ≠ some c := by
  unfold trimRightByte
  rw [List.getLast?_reverse]
  exact dropWhile_head_ne c _

theorem trimRightByte_append_replicate (s : List Char) (c : Char) :
    ∃ b : Nat, s = trimRightByte s c ++ List.replicate b c := by
  obtain ⟨b, hb⟩ := dropWhile_replicate_append c s.reverse
  refine ⟨b, ?_⟩
  have h := congrArg List.reverse hb
  simpa [trimRightByte] using h

/-- The result of `TrimChars` is the input without a leading and a trailing run of `c`,
and starts and ends with something else. -/
theorem TrimChars_spec (s : List Char) (c : Char) :
    ∃ a b : Nat, s = List.replicate a c ++ TrimChars s c ++ List.replicate b c ∧
      (TrimChars s c).head? ≠ some c ∧ (TrimChars s c).getLast? ≠ some c := by
  obtain ⟨b, hb⟩ := trimRightByte_append_replicate s c
  obtain ⟨a, ha⟩ := dropWhile_replicate_append c (trimRightByte s c)
  refine ⟨a, b, ?_, dropWhile_head_ne c _, ?_⟩
  · unfold TrimChars trimLeftByte
    rw [← ha]
    exact hb
  · unfold TrimChars trimLeftByte
    by_cases hnil : (trimRightByte s c).dropWhile (fun x => x == c) = []
    · simp [hnil]
    · have hlast := trimRightByte_getLast_ne s c
      rw [ha, List.getLast?_append_of_ne_nil _ hnil] at hlast
      exact hlast

/-- Whatever is framed by runs of `c` and neither starts nor ends with `c` is what
`TrimChars` gives back. -/
theorem TrimChars_of_framed (c : Char) (a b : Nat) (t : List Char)
    (hh : t.head? ≠ some c) (hl : t.getLast? ≠ some c) :
    TrimChars (List.replicate a c ++ t ++ List.replicate b c) c = t := by
  have hr : trimRightByte (List.replicate a c ++ t ++ List.replicate b c) c =
      trimRightByte (List.replicate a c ++ t) c := by
    unfold trimRightByte
    rw [List.reverse_append, List.reverse_replicate, dropWhile_replicate_self]
  by_cases ht : t = []
  · subst ht
    have h1 : trimRightByte (List.replicate a c ++ []) c = [] := by
      unfold trimRightByte
      simp [dropWhile_replicate_self c a []]
    unfold TrimChars
    rw [hr, h1]
    rfl
  · have h2 : trimRightByte (List.replicate a c ++ t) c = List.replicate a c ++ t := by
      unfold trimRightByte
      rw [dropWhile_eq_self, List.reverse_reverse]
      rw [List.head?_reverse, List.getLast?_append_of_ne_nil _ ht]
      exact hl
    unfold TrimChars
    rw [hr, h2]
    unfold trimLeftByte
    rw [dropWhile_replicate_self, dropWhile_eq_self c t hh]

theorem Stripped_iff (c : Char) (p t : String) : Stripped c p t ↔ t = Trim p c := by
  constructor
  · rintro ⟨a, b, hp, hh, hl⟩
    apply String.ext
    show t.data = TrimChars p.data c
    rw [hp, TrimChars_of_framed c a b t.data hh hl]
  · rintro rfl
    obtain ⟨a, b, h⟩ := TrimChars_spec p.data c
    exact ⟨a, b, h⟩

theorem Trim_idem (p : String) (c : Char) : Trim (Trim p c) c = Trim p c := by
  obtain ⟨a, b, -, hh, hl⟩ := TrimChars_spec p.data c
  symm
  rw [← Stripped_iff]
  exact ⟨0, 0, by simp, hh, hl⟩

theorem Trim_not_mem (p : String) (c sep : Char) (h : sep ∉ p.data) :
    sep ∉ (Trim p c).data := fun hm => h ((TrimChars_sublist p.data c).subset hm)

theorem TrimChars_eq_nil_iff (s : List Char) (c : Char) :
    TrimChars s c = [] ↔ ∀ x ∈ s, x = c := by
  constructor
  · intro h x hx
    obtain ⟨a, b, hs, -, -⟩ := TrimChars_spec s c
    rw [h] at hs
    rw [hs] at hx
    simp only [List.append_nil, List.mem_append, List.mem_replicate] at hx
    rcases hx with hx | hx <;> exact hx.2
  · intro h
    obtain ⟨-, -, -, hh, -⟩ := TrimChars_spec s c
    cases ht : TrimChars s c with
    | nil => rfl
    | cons x xs =>
      exfalso
      apply hh
      have hx : x ∈ s := (TrimChars_sublist s c).subset (by simp [ht])
      simp [ht, h x hx]

/-! ## `NewScopedEventhub` -/

theorem Split_length (raw : String) : (Split raw dot).length = raw.data.count dot + 1 := by
  simp [Split, SplitChars_length]

theorem NewScopedEventhub_of_split (raw p0 p1 p2 : String)
    (h : Split raw dot = [p0, p1, p2]) :
    NewScopedEventhub raw = (⟨p0, Trim p1 dquote, Trim p2 dquote⟩, none) := by
  unfold NewScopedEventhub
  rw [h]

theorem NewScopedEventhub_of_length_ne (raw : String) (h : (Split raw dot).length ≠ 3) :
    NewScopedEventhub raw = (ScopedEventhub.zero, some (invalidScopedEventhub raw)) := by
  unfold NewScopedEventhub
  split
  · rename_i heq
    simp [heq] at h
  · rfl

theorem Split_of_length (raw : String) (h : (Split raw dot).length = 3) :
    ∃ p0 p1 p2, Split raw dot = [p0, p1, p2] := by
  match hs : Split raw dot, h with
  | [p0, p1, p2], _ => exact ⟨p0, p1, p2, rfl⟩

theorem Split_dotted (p0 p1 p2 : String)
    (h0 : dot ∉ p0.data) (h1 : dot ∉ p1.data) (h2 : dot ∉ p2.data) :
    Split (p0 ++ "." ++ p1 ++ "." ++ p2) dot = [p0, p1, p2] := by
  have hd : (p0 ++ "." ++ p1 ++ "." ++ p2).data =
      p0.data ++ dot :: (p1.data ++ dot :: p2.data) := by
    simp [String.data_append, dot]
  unfold Split
  rw [hd, SplitChars_append_sep dot _ _ h0, SplitChars_append_sep dot _ _ h1,
    SplitChars_of_not_mem dot _ h2]
  rfl

theorem Split_not_mem (raw : String) : ∀ q ∈ Split raw dot, dot ∉ q.data := by
  intro q hq
  unfold Split at hq
  obtain ⟨l, hl, rfl⟩ := List.mem_map.mp hq
  exact SplitChars_not_mem dot raw.data l hl

/-- C1: `NewScopedEventhub raw` returns an error exactly when splitting `raw` on `.` does
not give 3 segments, which is exactly when `raw` does not hold two `.` characters; with
the error comes the zero `ScopedEventhub`, and the message is
`invalid scoped eventhub '<raw>'` with `raw` verbatim. -/
theorem NewScopedEventhub_error_iff (raw : String) :
    ((NewScopedEventhub raw).2 ≠ none ↔ (Split raw dot).length ≠ 3) ∧
    ((Split raw dot).length ≠ 3 ↔ raw.data.count dot ≠ 2) ∧
    ((NewScopedEventhub raw).2 ≠ none →
      NewScopedEventhub raw =
        (ScopedEventhub.zero, some ("invalid scoped eventhub '" ++ raw ++ "'"))) := by
  have key : (NewScopedEventhub raw).2 ≠ none ↔ (Split raw dot).length ≠ 3 := by
    constructor
    · intro herr hlen
      obtain ⟨p0, p1, p2, hs⟩ := Split_of_length raw hlen
      rw [NewScopedEventhub_of_split raw p0 p1 p2 hs] at herr
      exact herr rfl
    · intro hlen
      rw [NewScopedEventhub_of_length_ne raw hlen]
      simp
  refine ⟨key, ?_, ?_⟩
  · rw [Split_length]
    omega
  · intro herr
    exact NewScopedEventhub_of_length_ne raw (key.mp herr)

theorem NewScopedEventhub_error_iff_witness :
    NewScopedEventhub "peer1.hub" =
      (ScopedEventhub.zero, some ("invalid scoped eventhub '" ++ "peer1.hub" ++ "'")) :=
  (NewScopedEventhub_error_iff "peer1.hub").2.2 (by decide)

/-- C2: for `raw = p0.p1.p2` with no `.` inside the three segments, `NewScopedEventhub`
succeeds; `PeerName` is `p0` unchanged, `Eventhub` is `p1` and `PartitionKeyColumn` is
`p2` without their leading and trailing runs of `"` (all of them, balanced or not,
nothing else), and these are the only strings of that shape. The example of the spec is
the last conjunct. -/
theorem NewScopedEventhub_fields (p0 p1 p2 : String)
    (h0 : dot ∉ p0.data) (h1 : dot ∉ p1.data) (h2 : dot ∉ p2.data) :
    (∃ s, NewScopedEventhub (p0 ++ "." ++ p1 ++ "." ++ p2) = (s, none) ∧
      s.PeerName = p0 ∧
      Stripped dquote p1 s.Eventhub ∧ (∀ t, Stripped dquote p1 t → t = s.Eventhub) ∧
      Stripped dquote p2 s.PartitionKeyColumn ∧
      (∀ t, Stripped dquote p2 t → t = s.PartitionKeyColumn)) ∧
    NewScopedEventhub "peer1.\"my-hub\".\"part_key\"" =
      (⟨"peer1", "my-hub", "part_key"⟩, none) := by
  refine ⟨⟨⟨p0, Trim p1 dquote, Trim p2 dquote⟩, ?_, rfl, ?_, ?_, ?_, ?_⟩, by decide⟩
  · exact NewScopedEventhub_of_split _ p0 p1 p2 (Split_dotted p0 p1 p2 h0 h1 h2)
  · exact (Stripped_iff dquote p1 _).mpr rfl
  · exact fun t ht => (Stripped_iff dquote p1 t).mp ht
  · exact (Stripped_iff dquote p2 _).mpr rfl
  · exact fun t ht => (Stripped_iff dquote p2 t).mp ht

theorem NewScopedEventhub_fields_witness :
    ∃ s, NewScopedEventhub ("peer1" ++ "." ++ "\"\"my\"hub\"" ++ "." ++ "part_key\"") =
        (s, none) ∧
      s.PeerName = "peer1" ∧
      Stripped dquote "\"\"my\"hub\"" s.Eventhub ∧
      (∀ t, Stripped dquote "\"\"my\"hub\"" t → t = s.Eventhub) ∧
      Stripped dquote "part_key\"" s.PartitionKeyColumn ∧
      (∀ t, Stripped dquote "part_key\"" t → t = s.PartitionKeyColumn) :=
  (NewScopedEventhub_fields "peer1" "\"\"my\"hub\"" "part_key\""
    (by decide) (by decide) (by decide)).1

/-- C3: for `raw` with three `.`-delimited segments, parsing succeeds, and parsing the
`ToString` of the result succeeds with the very same value: `Equals` holds and the
`ToString` of the second result is the `ToString` of the first. -/
theorem NewScopedEventhub_ToString_fixed (raw : String) (h : (Split raw dot).length = 3) :
    (NewScopedEventhub raw).2 = none ∧
    NewScopedEventhub (NewScopedEventhub raw).1.ToString = ((NewScopedEventhub raw).1, none) ∧
    (NewScopedEventhub (NewScopedEventhub raw).1.ToString).1.Equals
      (NewScopedEventhub raw).1 = true ∧
    (NewScopedEventhub (NewScopedEventhub raw).1.ToString).1.ToString =
      (NewScopedEventhub raw).1.ToString := by
  obtain ⟨p0, p1, p2, hs⟩ := Split_of_length raw h
  have hmem := Split_not_mem raw
  rw [hs] at hmem
  have h0 : dot ∉ p0.data := hmem p0 (by simp)
  have h1 : dot ∉ (Trim p1 dquote).data := Trim_not_mem p1 dquote dot (hmem p1 (by simp))
  have h2 : dot ∉ (Trim p2 dquote).data := Trim_not_mem p2 dquote dot (hmem p2 (by simp))
  have hfix : NewScopedEventhub (NewScopedEventhub raw).1.ToString =
      ((NewScopedEventhub raw).1, none) := by
    rw [NewScopedEventhub_of_split raw p0 p1 p2 hs]
    show NewScopedEventhub (p0 ++ "." ++ Trim p1 dquote ++ "." ++ Trim p2 dquote) = _
    rw [NewScopedEventhub_of_split _ _ _ _ (Split_dotted _ _ _ h0 h1 h2), Trim_idem, Trim_idem]
  refine ⟨?_, hfix, ?_, ?_⟩
  · rw [NewScopedEventhub_of_split raw p0 p1 p2 hs]
  · rw [hfix]
    simp [ScopedEventhub.Equals]
  · rw [hfix]

theorem NewScopedEventhub_ToString_fixed_witness :
    ((NewScopedEventhub "peer1.\"my-hub\".\"part_key\"").1.ToString = "peer1.my-hub.part_key" ∧
      (NewScopedEventhub "peer1.\"my-hub\".\"part_key\"").1.ToString ≠
        "peer1.\"my-hub\".\"part_key\"") ∧
    NewScopedEventhub (NewScopedEventhub "peer1.\"my-hub\".\"part_key\"").1.ToString =
      ((NewScopedEventhub "peer1.\"my-hub\".\"part_key\"").1, none) :=
  ⟨by decide,
    (NewScopedEventhub_ToString_fixed "peer1.\"my-hub\".\"part_key\"" (by decide)).2.1⟩

/-- C8, as the spec has it, fails: `..` parses without error into three empty fields. -/
theorem NewScopedEventhub_empty_fields :
    (NewScopedEventhub "..").2 = none ∧
    (NewScopedEventhub "..").1.PeerName = "" ∧
    (NewScopedEventhub "..").1.Eventhub = "" ∧
    (NewScopedEventhub "..").1.PartitionKeyColumn = "" ∧
    ¬ (∀ raw : String, (NewScopedEventhub raw).2 = none →
        (NewScopedEventhub raw).1.PeerName ≠ "" ∧ (NewScopedEventhub raw).1.Eventhub ≠ "" ∧
          (NewScopedEventhub raw).1.PartitionKeyColumn ≠ "") := by
  refine ⟨by decide, by decide, by decide, by decide, ?_⟩
  intro hall
  exact (hall ".." (by decide)).1 (by decide)

/-- C8, amended: for `raw = p0.p1.p2` parsed without error, `PeerName` is non-empty
exactly when `p0` is, `Eventhub` exactly when `p1` holds a character other than `"`, and
`PartitionKeyColumn` exactly when `p2` holds a character other than `"`. -/
theorem NewScopedEventhub_nonempty_iff (p0 p1 p2 : String)
    (h0 : dot ∉ p0.data) (h1 : dot ∉ p1.data) (h2 : dot ∉ p2.data) :
    (NewScopedEventhub (p0 ++ "." ++ p1 ++ "." ++ p2)).2 = none ∧
    ((NewScopedEventhub (p0 ++ "." ++ p1 ++ "." ++ p2)).1.PeerName ≠ "" ↔ p0 ≠ "") ∧
    ((NewScopedEventhub (p0 ++ "." ++ p1 ++ "." ++ p2)).1.Eventhub ≠ "" ↔
      ∃ x ∈ p1.data, x ≠ dquote) ∧
    ((NewScopedEventhub (p0 ++ "." ++ p1 ++ "." ++ p2)).1.PartitionKeyColumn ≠ "" ↔
      ∃ x ∈ p2.data, x ≠ dquote) := by
  have hne : ∀ p : String, Trim p dquote ≠ "" ↔ ∃ x ∈ p.data, x ≠ dquote := by
    intro p
    have hiff := TrimChars_eq_nil_iff p.data dquote
    have hstr : Trim p dquote = "" ↔ TrimChars p.data dquote = [] := by
      constructor
      · intro e
        exact congrArg String.data e
      · intro e
        exact String.ext e
    rw [Ne, hstr, hiff]
    push_neg
    rfl
  rw [NewScopedEventhub_of_split _ p0 p1 p2 (Split_dotted p0 p1 p2 h0 h1 h2)]
  exact ⟨rfl, Iff.rfl, hne p1, hne p2⟩

theorem NewScopedEventhub_nonempty_iff_witness :
    (NewScopedEventhub ("peer1" ++ "." ++ "\"\"" ++ "." ++ "col")).1.Eventhub = "" ∧
    ((NewScopedEventhub ("peer1" ++ "." ++ "\"\"" ++ "." ++ "col")).1.PartitionKeyColumn ≠ "" ↔
      ∃ x ∈ "col".data, x ≠ dquote) :=
  ⟨by decide,
    (NewScopedEventhub_nonempty_iff "peer1" "\"\"" "col"
      (by decide) (by decide) (by decide)).2.2.2⟩

/-! ## The catalog pool singleton -/

section Catalog

open catalog

theorem pingAndReturn_pool (w : World) (p : Pool) (events : List Event) :
    (pingAndReturn w p events).pool = some p ∧ (pingAndReturn w p events).ret.1 = some p ∧
    (pingAndReturn w p events).events = events ++ [Event.Ping p] ∧
    (pingAndReturn w p events).ret.2 = (w.Ping p).map (GoError.wrap unableToEstablish) := by
  unfold pingAndReturn
  cases w.Ping p <;> simp

theorem calls_of_set (p : Pool) (ws : List World) :
    List.Forall₂ (fun w c =>
        c.ret.1 = some p ∧ c.pool = some p ∧ Event.New ∉ c.events ∧
        c.events = [Event.Ping p] ∧
        c.ret.2 = (w.Ping p).map (GoError.wrap unableToEstablish))
      ws (calls ws (some p)) := by
  induction ws with
  | nil => exact List.Forall₂.nil
  | cons w ws ih =>
    obtain ⟨h1, h2, h3, h4⟩ := pingAndReturn_pool w p []
    have hc : GetCatalogConnectionPoolFromEnv w (some p) = pingAndReturn w p [] := rfl
    rw [calls]
    simp only [hc, h1]
    refine List.Forall₂.cons ⟨h2, h1, ?_, by simpa using h3, h4⟩ ih
    rw [h3]
    simp

/-- C4: once a call has constructed the pool `p`, the singleton holds `p`, and every
later call, in any sequence of calls and whatever its probe answers, returns `p`, leaves
the singleton at `p` and only pings (no construction); its error is nil when the probe
succeeds and the probe failure wrapped when it fails. -/
theorem GetCatalogConnectionPoolFromEnv_same_pool (w0 : World) (p : Pool)
    (h : w0.New = .ok p) (ws : List World) :
    (GetCatalogConnectionPoolFromEnv w0 none).pool = some p ∧
    (GetCatalogConnectionPoolFromEnv w0 none).ret.1 = some p ∧
    List.Forall₂ (fun w c =>
        c.ret.1 = some p ∧ c.pool = some p ∧ Event.New ∉ c.events ∧
        c.events = [Event.Ping p] ∧
        c.ret.2 = (w.Ping p).map (GoError.wrap unableToEstablish))
      ws (calls ws (GetCatalogConnectionPoolFromEnv w0 none).pool) := by
  have hc : GetCatalogConnectionPoolFromEnv w0 none = pingAndReturn w0 p [Event.New] := by
    simp [GetCatalogConnectionPoolFromEnv, h]
  obtain ⟨h1, h2, -, -⟩ := pingAndReturn_pool w0 p [Event.New]
  rw [hc, h1]
  exact ⟨rfl, h2, calls_of_set p ws⟩

theorem GetCatalogConnectionPoolFromEnv_same_pool_witness :
    List.Forall₂ (fun (w : World) (c : Call) =>
        c.ret.1 = some 7 ∧ c.pool = some 7 ∧ Event.New ∉ c.events ∧
        c.events = [Event.Ping 7] ∧
        c.ret.2 = (w.Ping 7).map (GoError.wrap unableToEstablish))
      [World.mk (.ok 8) (fun _ => some (GoError.base "conn closed")),
        World.mk (.error (GoError.base "no route")) (fun _ => none)]
      (calls
        [World.mk (.ok 8) (fun _ => some (GoError.base "conn closed")),
          World.mk (.error (GoError.base "no route")) (fun _ => none)]
        (GetCatalogConnectionPoolFromEnv
          (World.mk (.ok 7) (fun _ => some (GoError.base "timeout"))) none).pool) :=
  (GetCatalogConnectionPoolFromEnv_same_pool
    (World.mk (.ok 7) (fun _ => some (GoError.base "timeout"))) 7 rfl _).2.2

/-- C5: with the singleton unset and construction failing with `err`, the call returns
a nil pool and `err` wrapped, performs no probe (its only external call is the
construction) and leaves the singleton unset; the next call then starts by constructing
again, and when that construction and its probe succeed it returns the new pool with a
nil error and sets the singleton. -/
theorem GetCatalogConnectionPoolFromEnv_construction_fails (w : World) (err : GoError)
    (h : w.New = .error err) :
    (GetCatalogConnectionPoolFromEnv w none).ret =
      (none, some (GoError.wrap unableToEstablish err)) ∧
    (GetCatalogConnectionPoolFromEnv w none).events = [Event.New] ∧
    (∀ p, Event.Ping p ∉ (GetCatalogConnectionPoolFromEnv w none).events) ∧
    (GetCatalogConnectionPoolFromEnv w none).pool = none ∧
    ∀ next : World,
      (GetCatalogConnectionPoolFromEnv next
        (GetCatalogConnectionPoolFromEnv w none).pool).events.head? = some Event.New ∧
      ∀ p, next.New = .ok p → next.Ping p = none →
        (GetCatalogConnectionPoolFromEnv next
          (GetCatalogConnectionPoolFromEnv w none).pool).ret = (some p, none) ∧
        (GetCatalogConnectionPoolFromEnv next
          (GetCatalogConnectionPoolFromEnv w none).pool).pool = some p := by
  have hc : GetCatalogConnectionPoolFromEnv w none =
      { pool := none, ret := (none, some (GoError.wrap unableToEstablish err)),
        events := [Event.New] } := by
    simp [GetCatalogConnectionPoolFromEnv, h]
  rw [hc]
  refine ⟨rfl, rfl, by simp, rfl, ?_⟩
  intro next
  constructor
  · cases hn : next.New with
    | error e => simp [GetCatalogConnectionPoolFromEnv, hn]
    | ok q =>
      have := (pingAndReturn_pool next q [Event.New]).2.2.1
      simp [GetCatalogConnectionPoolFromEnv, hn, this]
  · intro p hnew hping
    simp [GetCatalogConnectionPoolFromEnv, hnew, pingAndReturn, hping]

theorem GetCatalogConnectionPoolFromEnv_construction_fails_witness :
    (GetCatalogConnectionPoolFromEnv
        (World.mk (.error (GoError.base "connection refused")) (fun _ => none)) none).ret =
      (none, some (GoError.wrap unableToEstablish (GoError.base "connection refused"))) ∧
    (GetCatalogConnectionPoolFromEnv (World.mk (.ok 3) (fun _ => none))
      (GetCatalogConnectionPoolFromEnv
        (World.mk (.error (GoError.base "connection refused")) (fun _ => none))
        none).pool).ret = (some 3, none) :=
  ⟨(GetCatalogConnectionPoolFromEnv_construction_fails
      (World.mk (.error (GoError.base "connection refused")) (fun _ => none))
      (GoError.base "connection refused") rfl).1,
    (((GetCatalogConnectionPoolFromEnv_construction_fails
      (World.mk (.error (GoError.base "connection refused")) (fun _ => none))
      (GoError.base "connection refused") rfl).2.2.2.2
        (World.mk (.ok 3) (fun _ => none))).2 3 rfl rfl).1⟩

end Catalog

/-! ## The role actions -/

section Flow

open flow

/-- C6: in the worker and the snapshot-worker role, when the bootstrap entry point
returns an error the action makes that one call only (no unit run, no client closed) and
returns the same error; when it returns a client `c` and a unit `w`, the calls are the
bootstrap, `w.Run` once, then `c.Close` once, whatever `w.Run` does (nil, error or
panic), and the action ends as `w.Run` did. The entry points of the other roles do not
occur in the trace. -/
theorem appRun_worker_roles (cmd : Cmd) (clicmd : CliCommand) :
    (∀ err, cmd.WorkerMain (workerOptions clicmd) = .error err →
      appRun cmd Role.worker clicmd =
        { trace := [Event.WorkerMain (workerOptions clicmd)]
          result := Outcome.ret (some err) }) ∧
    (∀ c w, cmd.WorkerMain (workerOptions clicmd) = .ok (c, w) →
      appRun cmd Role.worker clicmd =
        { trace := [Event.WorkerMain (workerOptions clicmd), Event.Run w, Event.Close c]
          result := cmd.Run w }) ∧
    (∀ err, cmd.SnapshotWorkerMain (snapshotWorkerOptions clicmd) = .error err →
      appRun cmd Role.snapshotWorker clicmd =
        { trace := [Event.SnapshotWorkerMain (snapshotWorkerOptions clicmd)]
          result := Outcome.ret (some err) }) ∧
    (∀ c w, cmd.SnapshotWorkerMain (snapshotWorkerOptions clicmd) = .ok (c, w) →
      appRun cmd Role.snapshotWorker clicmd =
        { trace :=
            [Event.SnapshotWorkerMain (snapshotWorkerOptions clicmd), Event.Run w, Event.Close c]
          result := cmd.Run w }) ∧
    (∀ e ∈ (appRun cmd Role.worker clicmd).trace,
      (∀ o, e ≠ Event.SnapshotWorkerMain o) ∧ (∀ q, e ≠ Event.APIMain q)) ∧
    (∀ e ∈ (appRun cmd Role.snapshotWorker clicmd).trace,
      (∀ o, e ≠ Event.WorkerMain o) ∧ (∀ q, e ≠ Event.APIMain q)) := by
  refine ⟨?_, ?_, ?_, ?_, ?_, ?_⟩
  · intro err h
    simp [appRun, workerAction, h]
  · intro c w h
    simp [appRun, workerAction, h, withDefer]
  · intro err h
    simp [appRun, snapshotWorkerAction, h]
  · intro c w h
    simp [appRun, snapshotWorkerAction, h, withDefer]
  · intro e he
    cases h : cmd.WorkerMain (workerOptions clicmd) with
    | error err =>
      simp [appRun, workerAction, h] at he
      subst he
      simp
    | ok cw =>
      obtain ⟨c, w⟩ := cw
      simp [appRun, workerAction, h, withDefer] at he
      rcases he with rfl | rfl | rfl <;> simp
  · intro e he
    cases h : cmd.SnapshotWorkerMain (snapshotWorkerOptions clicmd) with
    | error err =>
      simp [appRun, snapshotWorkerAction, h] at he
      subst he
      simp
    | ok cw =>
      obtain ⟨c, w⟩ := cw
      simp [appRun, snapshotWorkerAction, h, withDefer] at he
      rcases he with rfl | rfl | rfl <;> simp

theorem appRun_worker_roles_witness :
    appRun (Cmd.mk (fun _ => .ok (4, 5)) (fun _ => .error (GoError.base "no namespace"))
        (fun _ => Outcome.ret none) (fun _ => Outcome.panicked "nil map")) Role.worker {} =
      { trace := [Event.WorkerMain (workerOptions {}), Event.Run 5, Event.Close 4]
        result := Outcome.panicked "nil map" } ∧
    appRun (Cmd.mk (fun _ => .ok (4, 5)) (fun _ => .error (GoError.base "no namespace"))
        (fun _ => Outcome.ret none) (fun _ => Outcome.panicked "nil map"))
        Role.snapshotWorker {} =
      { trace := [Event.SnapshotWorkerMain (snapshotWorkerOptions {})]
        result := Outcome.ret (some (GoError.base "no namespace")) } :=
  ⟨(appRun_worker_roles (Cmd.mk (fun _ => .ok (4, 5))
      (fun _ => .error (GoError.base "no namespace"))
      (fun _ => Outcome.ret none) (fun _ => Outcome.panicked "nil map")) {}).2.1 4 5 rfl,
    (appRun_worker_roles (Cmd.mk (fun _ => .ok (4, 5))
      (fun _ => .error (GoError.base "no namespace"))
      (fun _ => Outcome.ret none) (fun _ => Outcome.panicked "nil map")) {}).2.2.1
        (GoError.base "no namespace") rfl⟩

/-! ## The end of `main` -/

theorem appRun_logs_nothing (cmd : Cmd) (role : Role) (clicmd : CliCommand) :
    (Process.mk (appRun cmd role clicmd).trace MainEnd.returned).logged = [] := by
  cases role with
  | worker =>
    cases h : cmd.WorkerMain (workerOptions clicmd) with
    | error err => simp [appRun, workerAction, h, Process.logged]
    | ok cw =>
      obtain ⟨c, w⟩ := cw
      simp [appRun, workerAction, h, withDefer, Process.logged]
  | snapshotWorker =>
    cases h : cmd.SnapshotWorkerMain (snapshotWorkerOptions clicmd) with
    | error err => simp [appRun, snapshotWorkerAction, h, Process.logged]
    | ok cw =>
      obtain ⟨c, w⟩ := cw
      simp [appRun, snapshotWorkerAction, h, withDefer, Process.logged]
  | api => simp [appRun, apiAction, Process.logged]

/-- C7, as the spec has it, fails: when the worker bootstrap fails, `app.Run` returns
that error, `main` logs it and returns, and the exit status is 0. -/
theorem main_error_exits_zero :
    (appRun refusingCmd Role.worker {}).result =
      Outcome.ret (some (GoError.base "dial tcp: connection refused")) ∧
    (main refusingCmd Role.worker {}).logged =
      ["error running app: dial tcp: connection refused"] ∧
    exitStatus (main refusingCmd Role.worker {}).ended = 0 ∧
    ¬ (∀ (cmd : Cmd) (role : Role) (clicmd : CliCommand) (err : GoError),
        (appRun cmd role clicmd).result = Outcome.ret (some err) →
          exitStatus (main cmd role clicmd).ended ≠ 0) := by
  refine ⟨by decide, by decide, by decide, ?_⟩
  intro hall
  exact hall refusingCmd Role.worker {} (GoError.base "dial tcp: connection refused")
    (by decide) (by decide)

/-- C7, amended: when `app.Run` returns an error, `main` logs
`error running app: <error>` once and returns, and the exit status is 0; when `app.Run`
returns nil, `main` logs nothing and the exit status is 0. -/
theorem main_logs_and_returns (cmd : Cmd) (role : Role) (clicmd : CliCommand) :
    (∀ err, (appRun cmd role clicmd).result = Outcome.ret (some err) →
      (main cmd role clicmd).logged = [errorRunningApp err] ∧
      (main cmd role clicmd).ended = MainEnd.returned ∧
      exitStatus (main cmd role clicmd).ended = 0) ∧
    ((appRun cmd role clicmd).result = Outcome.ret none →
      (main cmd role clicmd).logged = [] ∧
      (main cmd role clicmd).ended = MainEnd.returned ∧
      exitStatus (main cmd role clicmd).ended = 0) := by
  have hlog := appRun_logs_nothing cmd role clicmd
  simp only [Process.logged] at hlog
  constructor
  · intro err h
    simp [main, mainBody, h, Process.logged, List.filterMap_append, hlog, exitStatus]
  · intro h
    simp [main, mainBody, h, Process.logged, hlog, exitStatus]

theorem main_logs_and_returns_witness :
    ((main refusingCmd Role.worker {}).logged =
        [errorRunningApp (GoError.base "dial tcp: connection refused")] ∧
      (main refusingCmd Role.worker {}).ended = MainEnd.returned ∧
      exitStatus (main refusingCmd Role.worker {}).ended = 0) ∧
    ((main refusingCmd Role.api {}).logged = [] ∧
      (main refusingCmd Role.api {}).ended = MainEnd.returned ∧
      exitStatus (main refusingCmd Role.api {}).ended = 0) :=
  ⟨(main_logs_and_returns refusingCmd Role.worker {}).1
      (GoError.base "dial tcp: connection refused") (by decide),
    (main_logs_and_returns refusingCmd Role.api {}).2 (by decide)⟩

/-! ## Signals -/

theorem Lifecycle_step_waiting (s : Lifecycle) (r : Received) (h : s.listener = .waiting) :
    (s.step r).appCtxDone = (s.appCtxDone || r.cancels) ∧
    (s.step r).log = s.log ++ r.dumpLine.toList ∧
    (s.step r).listener = .waiting := by
  cases r <;> simp [Lifecycle.step, dumpOnce, h, Received.cancels, Received.dumpLine]

theorem Lifecycle_run_waiting (sigs : List Received) (s : Lifecycle)
    (h : s.listener = .waiting) :
    (s.run sigs).appCtxDone = (s.appCtxDone || sigs.any Received.cancels) ∧
    (s.run sigs).log = s.log ++ sigs.filterMap Received.dumpLine ∧
    (s.run sigs).listener = .waiting := by
  induction sigs generalizing s with
  | nil => simp [Lifecycle.run, h]
  | cons r rs ih =>
    obtain ⟨h1, h2, h3⟩ := Lifecycle_step_waiting s r h
    obtain ⟨i1, i2, i3⟩ := ih (s.step r) h3
    have hrun : s.run (r :: rs) = (s.step r).run rs := rfl
    rw [hrun, i1, i2, i3, h1, h2]
    refine ⟨by simp [Bool.or_assoc], ?_, rfl⟩
    cases hd : r.dumpLine <;> simp [List.filterMap_cons, hd]

/-- C9: after any signals `sigs` received since start-up, `appCtx` is cancelled exactly
when a SIGINT or SIGTERM is among them, the log holds one goroutine-dump line for each
SIGQUIT received, in order, and the listener is waiting; a further SIGQUIT leaves
`appCtx` as it is, appends one line holding what `runtime.Stack(buf, true)` wrote, and
leaves the listener waiting for the next one. -/
theorem sigquit_never_cancels (sigs : List Received) (Stack : Nat → Bool → String) :
    ((Lifecycle.started.run sigs).appCtxDone = true ↔ ∃ r ∈ sigs, r.cancels = true) ∧
    (Lifecycle.started.run sigs).log = sigs.filterMap Received.dumpLine ∧
    (Lifecycle.started.run sigs).log.length =
      sigs.countP (fun r => (r.dumpLine).isSome) ∧
    (Lifecycle.started.run sigs).listener = Listener.waiting ∧
    ((Lifecycle.started.run sigs).step (Received.SIGQUIT Stack)).appCtxDone =
      (Lifecycle.started.run sigs).appCtxDone ∧
    ((Lifecycle.started.run sigs).step (Received.SIGQUIT Stack)).log =
      (Lifecycle.started.run sigs).log ++
        ["=== received SIGQUIT ===\n*** goroutine dump...\n" ++ Stack 1048576 true ++
          "\n*** end\n"] ∧
    ((Lifecycle.started.run sigs).step (Received.SIGQUIT Stack)).listener =
      Listener.waiting := by
  obtain ⟨h1, h2, h3⟩ := Lifecycle_run_waiting sigs Lifecycle.started rfl
  obtain ⟨k1, k2, k3⟩ :=
    Lifecycle_step_waiting (Lifecycle.started.run sigs) (Received.SIGQUIT Stack) h3
  have hlog : (Lifecycle.started.run sigs).log = sigs.filterMap Received.dumpLine := by
    rw [h2]
    rfl
  refine ⟨?_, hlog, ?_, h3, ?_, ?_, k3⟩
  · rw [h1]
    simp [Lifecycle.started]
  · rw [hlog]
    clear h1 h2 h3 k1 k2 k3 hlog
    induction sigs with
    | nil => rfl
    | cons r rs ih =>
      cases hd : r.dumpLine <;> simp [List.filterMap_cons, List.countP_cons, hd, ih]
  · rw [k1]
    simp [Received.cancels]
  · rw [k2]
    rfl

/-! ## The ports of the api role -/

/-- C10: the api action calls `cmd.APIMain` once and returns what it returns; the `Port`
and `GatewayPort` it hands over are the `--port` and `--gateway-port` values modulo
65536, which are the flag values themselves exactly when those are below 65536 (8110
and 8111 by default), so a flag value of 65536 or more reaches `APIMain` as a different
port. -/
theorem apiAction_ports (cmd : Cmd) (clicmd : CliCommand) :
    appRun cmd Role.api clicmd =
      { trace := [Event.APIMain (apiParams clicmd)]
        result := cmd.APIMain (apiParams clicmd) } ∧
    (apiParams clicmd).Port = clicmd.port % 65536 ∧
    (apiParams clicmd).GatewayPort = clicmd.gatewayPort % 65536 ∧
    ((apiParams clicmd).Port = clicmd.port ↔ clicmd.port < 65536) ∧
    ((apiParams clicmd).GatewayPort = clicmd.gatewayPort ↔ clicmd.gatewayPort < 65536) ∧
    (apiParams {}).Port = 8110 ∧ (apiParams {}).GatewayPort = 8111 ∧
    (apiParams { port := 65536 + 8110 }).Port = 8110 := by
  refine ⟨rfl, rfl, rfl, ?_, ?_, by decide, by decide, by decide⟩
  · show clicmd.port % 65536 = clicmd.port ↔ _
    constructor
    · intro h
      have := Nat.mod_lt clicmd.port (by norm_num : 65536 > 0)
      omega
    · exact Nat.mod_eq_of_lt
  · show clicmd.gatewayPort % 65536 = clicmd.gatewayPort ↔ _
    constructor
    · intro h
      have := Nat.mod_lt clicmd.gatewayPort (by norm_num : 65536 > 0)
      omega
    · exact Nat.mod_eq_of_lt

end Flow
